import Mathlib

/-!
Verification of the data-cleaning pipeline (`main.py` / `app.py`).

The pandas `DataFrame` is modelled as a `Dataset`: a header of column names
plus row-major cells.  A pandas cell is a `Cell`: a rational number (modelling
int64/float64 values exactly), a string, a boolean, or the distinguished
missing marker (NaN / NA).  Float arithmetic of pandas is modelled by exact
rational arithmetic; every statistical comparison made by the source is
algebraically cleared of denominators so that it is expressed without
division (the accompanying theorems restate the specified forms with
division and prove them equivalent).
-/

set_option allowUnsafeReducibility true

attribute [semireducible] Rat.add Rat.mul Rat.sub Rat.inv

/-- Characters stripped by Python `str.strip()` and matched by `\s`
(ASCII range): space (32), tab (9), LF (10), VT (11), FF (12), CR (13). -/
def isPySpace (c : Char) : Bool :=
  decide (c.toNat = 32 ∨ (9 ≤ c.toNat ∧ c.toNat ≤ 13))

/-- Characters of the regex class `[a-zA-Z0-9_]` (Python `\w`, ASCII range). -/
def isWordChar (c : Char) : Bool :=
  decide ((65 ≤ c.toNat ∧ c.toNat ≤ 90) ∨ (97 ≤ c.toNat ∧ c.toNat ≤ 122) ∨
    (48 ≤ c.toNat ∧ c.toNat ≤ 57) ∨ c.toNat = 95)

/-- ASCII lower-casing of one character, as Python `str.lower()` acts on the
ASCII characters relevant here. -/
def pyLower (c : Char) : Char :=
  if 65 ≤ c.toNat ∧ c.toNat ≤ 90 then Char.ofNat (c.toNat + 32) else c

/-- Python `str.strip()` on a character list: remove leading and trailing
whitespace. -/
def pyStripChars (l : List Char) : List Char :=
  ((l.dropWhile isPySpace).reverse.dropWhile isPySpace).reverse

/-- One cell of a DataFrame: a numeric value (int64/float64 modelled as an
exact rational), a string, a boolean, or the missing marker (NaN / NA). -/
inductive Cell where
  | numV (q : ℚ)
  | strV (s : String)
  | boolV (b : Bool)
  | dateV (d : Int)
  | missing
deriving DecidableEq, Repr

/-- Integer-valued rational literal, written so that all arithmetic on it
reduces computationally. -/
def qInt (n : Int) : ℚ := mkRat n 1

/-- Python `str()` of a cell, as applied by `astype(str)`: floats print with a
trailing `.0` when integral, NaN prints as the literal string `"nan"`,
booleans as `"True"` / `"False"`.  (Non-integral float text forms are
approximated by the exact rational rendering; no claim depends on them.) -/
def cellToStr : Cell → String
  | .numV q => if q.den = 1 then toString q.num ++ ".0" else toString q
  | .strV s => s
  | .boolV true => "True"
  | .boolV false => "False"
  | .dateV d => toString d
  | .missing => "nan"

/-- In-memory tabular dataset: named columns over row-major cells
(the pandas DataFrame of `main.py`). -/
structure Dataset where
  header : List String
  rows : List (List Cell)
deriving DecidableEq, Repr

/-- Index of a named column, as `df[name]` resolves it. -/
def findCol (df : Dataset) (name : String) : Option Nat :=
  df.header.findIdx? (fun s => s == name)

/-- Cell of a row at a column index (missing when the row is too short;
rows of a well-formed dataset always have full length). -/
def getCell (r : List Cell) (i : Nat) : Cell := r.getD i Cell.missing

/-- Extract column `i` of the dataset. -/
def column (df : Dataset) (i : Nat) : List Cell :=
  df.rows.map (fun r => getCell r i)

/-- Every row has exactly one cell per header entry (the DataFrame shape
invariant). -/
def Aligned (df : Dataset) : Prop := ∀ r ∈ df.rows, r.length = df.header.length

instance (df : Dataset) : Decidable (Aligned df) := by
  unfold Aligned; infer_instance

/-- Replace column `i` of each row by the image of a cell function, as a
whole-column assignment `df[col] = f(df[col])` does. -/
def mapColumnAt (df : Dataset) (i : Nat) (f : Cell → Cell) : Dataset :=
  Dataset.mk df.header (df.rows.map (fun r => r.set i (f (getCell r i))))

/-- Source `standardize_column_names` (main.py line 35): each column name is
stripped, lower-cased, and every character outside `[a-zA-Z0-9_]` is replaced
by an underscore; the rows are untouched. -/
def normalizeName (s : String) : String :=
  String.mk ((pyStripChars s.data).map
    (fun c => if isWordChar (pyLower c) then pyLower c else '_'))

/-- Source `standardize_column_names` applied to the whole dataset. -/
def standardize_column_names (df : Dataset) : Dataset :=
  Dataset.mk (df.header.map normalizeName) df.rows

theorem char_ofNat_shift_toNat (n : Nat) (h2 : n ≤ 90) :
    (Char.ofNat (n + 32)).toNat = n + 32 := by
  have hv : (n + 32).isValidChar := by
    left; omega
  simp [Char.ofNat, hv, Char.ofNatAux, Char.toNat, UInt32.toNat, BitVec.toNat_ofNat]

theorem pyLower_toNat (c : Char) :
    (pyLower c).toNat =
      if 65 ≤ c.toNat ∧ c.toNat ≤ 90 then c.toNat + 32 else c.toNat := by
  unfold pyLower
  split
  · rename_i h
    exact char_ofNat_shift_toNat c.toNat h.2
  · rfl

theorem pyLower_fix (d : Char) (h : ¬(65 ≤ d.toNat ∧ d.toNat ≤ 90)) :
    pyLower d = d := by
  unfold pyLower
  exact if_neg h

theorem pyLower_pyLower (c : Char) : pyLower (pyLower c) = pyLower c := by
  apply pyLower_fix
  have ht := pyLower_toNat c
  split at ht <;> omega

theorem word_not_space (c : Char) (h : isWordChar c = true) :
    isPySpace c = false := by
  simp only [isWordChar, decide_eq_true_eq] at h
  simp only [isPySpace, decide_eq_false_iff_not]
  omega

/-- One character of `normalizeName`: lower-case, then replace non-word
characters by an underscore. -/
def normChar (c : Char) : Char := if isWordChar (pyLower c) then pyLower c else '_'

theorem normChar_idem (c : Char) : normChar (normChar c) = normChar c := by
  by_cases h : isWordChar (pyLower c) = true
  · have h1 : normChar c = pyLower c := if_pos h
    rw [h1]
    unfold normChar
    rw [pyLower_pyLower, if_pos h]
  · have h1 : normChar c = '_' := if_neg h
    rw [h1]
    decide

theorem normChar_not_space (c : Char) : isPySpace (normChar c) = false := by
  unfold normChar
  split
  · rename_i h
    exact word_not_space _ h
  · decide

theorem dropWhile_all_false {α : Type} {p : α → Bool} (l : List α)
    (h : ∀ c ∈ l, p c = false) : l.dropWhile p = l := by
  cases l with
  | nil => rfl
  | cons a t =>
    simp [List.dropWhile, h a (List.mem_cons_self a t)]

theorem pyStripChars_id (l : List Char) (h : ∀ c ∈ l, isPySpace c = false) :
    pyStripChars l = l := by
  unfold pyStripChars
  rw [dropWhile_all_false l h,
    dropWhile_all_false l.reverse (fun c hc => h c (List.mem_reverse.mp hc)),
    List.reverse_reverse]

theorem normalizeName_idem (s : String) :
    normalizeName (normalizeName s) = normalizeName s := by
  show normalizeName (String.mk ((pyStripChars s.data).map normChar)) =
    String.mk ((pyStripChars s.data).map normChar)
  unfold normalizeName
  have hdata : (String.mk ((pyStripChars s.data).map normChar)).data =
      (pyStripChars s.data).map normChar := rfl
  rw [hdata]
  rw [pyStripChars_id _ (by
    intro c hc
    obtain ⟨a, _, rfl⟩ := List.mem_map.mp hc
    exact normChar_not_space a)]
  rw [List.map_map]
  congr 1
  apply List.map_congr_left
  intro a _
  exact normChar_idem a

/-- C8: the Column Normalizer is idempotent — normalizing twice equals
normalizing once (so in particular the column names agree), and a single
normalization leaves the row data untouched. -/
theorem C8_normalizer_idempotent (df : Dataset) :
    standardize_column_names (standardize_column_names df) =
      standardize_column_names df ∧
    (standardize_column_names df).rows = df.rows := by
  constructor
  · unfold standardize_column_names
    simp only [List.map_map]
    congr 1
    apply List.map_congr_left
    intro a _
    exact normalizeName_idem a
  · rfl

/-- Cell of row `r` in the column named `name` (missing when absent; the UI
only passes names drawn from `df.columns`). -/
def cellAtName (df : Dataset) (r : List Cell) (name : String) : Cell :=
  match findCol df name with
  | some i => getCell r i
  | none => Cell.missing

/-- Source `df.dropna(subset=drop_cols)` (app.py line 100, the drop branch of
the Missing-Value Handler with an explicit column list): keep exactly the rows
with no missing value in any of the listed columns. -/
def dropna_subset (df : Dataset) (cols : List String) : Dataset :=
  Dataset.mk df.header
    (df.rows.filter (fun r => cols.all (fun c => !decide (cellAtName df r c = Cell.missing))))

/-- Key of a row under a dedup column subset, as `drop_duplicates(subset=...)`
compares rows (pandas compares NaN keys as equal, as does `Cell.missing`). -/
def keyOf (df : Dataset) (subset : List String) (r : List Cell) : List Cell :=
  subset.map (cellAtName df r)

/-- First-occurrence filter underlying `drop_duplicates(keep="first")`:
`seen` accumulates the keys already emitted. -/
def dedupRows (key : List Cell → List Cell) (seen : List (List Cell)) :
    List (List Cell) → List (List Cell)
  | [] => []
  | r :: rs =>
    if key r ∈ seen then dedupRows key seen rs
    else r :: dedupRows key (key r :: seen) rs

/-- Source `remove_duplicates` (main.py line 86):
`df.drop_duplicates(subset=subset_cols)`. -/
def remove_duplicates (df : Dataset) (subset : List String) : Dataset :=
  Dataset.mk df.header (dedupRows (keyOf df subset) [] df.rows)

theorem dedupRows_sublist (key : List Cell → List Cell) (seen : List (List Cell))
    (rs : List (List Cell)) : (dedupRows key seen rs).Sublist rs := by
  induction rs generalizing seen with
  | nil => exact List.Sublist.refl _
  | cons r rs ih =>
    unfold dedupRows
    split
    · exact (ih seen).cons r
    · exact (ih (key r :: seen)).cons₂ r

theorem dedupRows_not_seen (key : List Cell → List Cell) (seen : List (List Cell))
    (rs : List (List Cell)) : ∀ r ∈ dedupRows key seen rs, key r ∉ seen := by
  induction rs generalizing seen with
  | nil => intro r hr; cases hr
  | cons a rs ih =>
    intro r hr
    unfold dedupRows at hr
    split at hr
    · exact ih seen r hr
    · rcases List.mem_cons.mp hr with h1 | h1
      · subst h1; assumption
      · intro hsk
        exact ih (key a :: seen) r h1 (List.mem_cons_of_mem _ hsk)

theorem dedupRows_pairwise (key : List Cell → List Cell) (seen : List (List Cell))
    (rs : List (List Cell)) :
    (dedupRows key seen rs).Pairwise (fun a b => key a ≠ key b) := by
  induction rs generalizing seen with
  | nil => exact List.Pairwise.nil
  | cons a rs ih =>
    unfold dedupRows
    split
    · exact ih seen
    · refine List.Pairwise.cons ?_ (ih (key a :: seen))
      intro b hb heq
      exact dedupRows_not_seen key _ rs b hb (heq ▸ List.mem_cons_self _ _)

theorem dedupRows_covers (key : List Cell → List Cell) (seen : List (List Cell))
    (rs : List (List Cell)) :
    ∀ r ∈ rs, key r ∈ seen ∨ ∃ x ∈ dedupRows key seen rs, key x = key r := by
  induction rs generalizing seen with
  | nil => intro r hr; cases hr
  | cons a rs ih =>
    intro r hr
    unfold dedupRows
    rcases List.mem_cons.mp hr with h1 | h1
    · subst h1
      split
      · left; assumption
      · right; exact ⟨r, List.mem_cons_self _ _, rfl⟩
    · split
      · exact ih seen r h1
      · rcases ih (key a :: seen) r h1 with h2 | ⟨x, hx, hk⟩
        · rcases List.mem_cons.mp h2 with h3 | h3
          · right; exact ⟨a, List.mem_cons_self _ _, h3.symm⟩
          · left; exact h3
        · right; exact ⟨x, List.mem_cons_of_mem _ hx, hk⟩

theorem dedupRows_find (key : List Cell → List Cell) (seen : List (List Cell))
    (rs : List (List Cell)) (k : List Cell) (hk : k ∉ seen) :
    (dedupRows key seen rs).find? (fun x => key x == k) =
      rs.find? (fun x => key x == k) := by
  induction rs generalizing seen with
  | nil => rfl
  | cons a rs ih =>
    unfold dedupRows
    by_cases hak : key a = k
    · subst hak
      rw [if_neg hk]
      simp only [List.find?]
      rw [show (key a == key a) = true by simp]
    · have hba : (key a == k) = false := by simp [hak]
      split
      · rw [ih seen hk]
        simp only [List.find?, hba]
      · simp only [List.find?, hba]
        apply ih
        intro hmem
        rcases List.mem_cons.mp hmem with h1 | h1
        · exact hak h1.symm
        · exact hk h1

/-- C9: the Deduplicator keeps, for each distinct combination of values in the
key columns, exactly the first row in original order: the result is a sublist
of the input rows (stable order, never more rows), any two retained rows
differ in at least one key column, every input key combination is still
represented, and for every key the first matching row of the result is the
first matching row of the input. -/
theorem C9_dedup_first_stable (df : Dataset) (subset : List String)
    (hne : subset ≠ []) :
    ((remove_duplicates df subset).rows).Sublist df.rows ∧
    (remove_duplicates df subset).rows.length ≤ df.rows.length ∧
    ((remove_duplicates df subset).rows).Pairwise
      (fun a b => keyOf df subset a ≠ keyOf df subset b) ∧
    (∀ r ∈ df.rows, ∃ x ∈ (remove_duplicates df subset).rows,
      keyOf df subset x = keyOf df subset r) ∧
    (∀ k : List Cell,
      ((remove_duplicates df subset).rows).find? (fun x => keyOf df subset x == k) =
        df.rows.find? (fun x => keyOf df subset x == k)) := by
  refine ⟨dedupRows_sublist _ _ _, (dedupRows_sublist _ _ _).length_le, ?_, ?_, ?_⟩
  · exact dedupRows_pairwise _ _ _
  · intro r hr
    rcases dedupRows_covers (keyOf df subset) [] df.rows r hr with h | h
    · cases h
    · exact h
  · intro k
    exact dedupRows_find _ _ _ k (by intro h; cases h)

/-- Case-insensitive literal match of a (lower-case) token against the front
of the input; returns the remaining input on success. -/
def stripTokCI : List Char → List Char → Option (List Char)
  | [], l => some l
  | _ :: _, [] => none
  | t :: ts, c :: cs => if pyLower c = t then stripTokCI ts cs else none

/-- Alternatives of the title regex `(mr|mrs|dr|ms|shri)` in source order.
Python alternation is leftmost-first, so `mr` is tried before `mrs` (and the
optional tail of the pattern never fails), which makes the `mrs` alternative
unreachable. -/
def titleAlts : List (List Char) :=
  [['m','r'], ['m','r','s'], ['d','r'], ['m','s'], ['s','h','r','i']]

/-- First alternative that matches at the front of the input. -/
def tryAltsFrom : List (List Char) → List Char → Option (List Char)
  | [], _ => none
  | t :: ts, l =>
    match stripTokCI t l with
    | some r => some r
    | none => tryAltsFrom ts l

/-- Leftmost-alternative match of `(mr|mrs|dr|ms|shri)` at the front. -/
def tryAlts (l : List Char) : Option (List Char) := tryAltsFrom titleAlts l

/-- Consume the `\.?\s*` tail of the title pattern; the returned flag records
whether the character just before the remaining input is a word character
(needed for the next `\b` test of the scan). -/
def afterTok : List Char → List Char × Bool
  | '.' :: rest2 =>
    match rest2 with
    | c :: _ =>
      if isPySpace c then (rest2.dropWhile isPySpace, false) else (rest2, false)
    | [] => ([], false)
  | rest2 =>
    match rest2 with
    | c :: _ =>
      if isPySpace c then (rest2.dropWhile isPySpace, false) else (rest2, true)
    | [] => ([], true)

/-- Single left-to-right pass of
`re.sub(r"(?i)\b(mr|mrs|dr|ms|shri)\.?\s*", "", s)`: at every position whose
preceding character is not a word character, try the alternatives; on a match
delete it (plus optional period and trailing whitespace) and continue after
it, otherwise copy one character.  `fuel` only bounds the recursion and is
initialised to the input length, which every step strictly decreases. -/
def goT : Nat → Bool → List Char → List Char
  | 0, _, l => l
  | _ + 1, _, [] => []
  | fuel + 1, prevWord, c :: cs =>
    if prevWord then c :: goT fuel (isWordChar c) cs
    else
      match tryAlts (c :: cs) with
      | some rest1 => goT fuel (afterTok rest1).2 (afterTok rest1).1
      | none => c :: goT fuel (isWordChar c) cs

/-- Whether the title pattern matches anywhere in the input (same boundary
convention as the scan). -/
def hasT : Bool → List Char → Bool
  | _, [] => false
  | prevWord, c :: cs => (!prevWord && (tryAlts (c :: cs)).isSome) || hasT (isWordChar c) cs

/-- One cell of the source `remove_extra_titles` (main.py line 90): the
pandas replacement of every match of the title pattern by the empty string. -/
def stripTitles (s : String) : String := String.mk (goT s.data.length false s.data)

/-- Whether the title pattern matches anywhere in the string. -/
def hasTitleMatch (s : String) : Bool := hasT false s.data

/-- Source `remove_extra_titles` (main.py lines 89-91): the name column is
converted to text and every title match is removed.  (The UI only passes
columns present in the header.) -/
def remove_extra_titles (df : Dataset) (nameCol : String) : Dataset :=
  match findCol df nameCol with
  | some i => mapColumnAt df i (fun c => Cell.strV (stripTitles (cellToStr c)))
  | none => df

theorem goT_no_match (fuel : Nat) : ∀ (pw : Bool) (l : List Char),
    l.length ≤ fuel → hasT pw l = false → goT fuel pw l = l := by
  induction fuel with
  | zero =>
    intro pw l hlen _
    cases l with
    | nil => rfl
    | cons c cs => simp at hlen
  | succ fuel ih =>
    intro pw l hlen hm
    cases l with
    | nil => rfl
    | cons c cs =>
      unfold hasT at hm
      rw [Bool.or_eq_false_iff] at hm
      obtain ⟨hm1, hm2⟩ := hm
      have hlen2 : cs.length ≤ fuel := by
        simp only [List.length_cons] at hlen
        omega
      unfold goT
      by_cases hpw : pw
      · rw [if_pos hpw, ih (isWordChar c) cs hlen2 hm2]
      · rw [if_neg hpw]
        have halts : tryAlts (c :: cs) = none := by
          rw [Bool.and_eq_false_iff] at hm1
          rcases hm1 with h | h
          · simp [hpw] at h
          · exact Option.not_isSome_iff_eq_none.mp (by simp [h])
        rw [halts, ih (isWordChar c) cs hlen2 hm2]

/-- C1 counterexample: the claim says a mid-string title is left untouched, so
`"Jane Dr. Smith"` should be returned unchanged; the code removes the
mid-string `"Dr. "` and returns `"Jane Smith"`. -/
theorem C1_counterexample :
    remove_extra_titles (Dataset.mk ["name"] [[Cell.strV "Jane Dr. Smith"]]) "name" =
      Dataset.mk ["name"] [[Cell.strV "Jane Smith"]] ∧
    Cell.strV "Jane Smith" ≠ Cell.strV "Jane Dr. Smith" := by
  constructor
  · decide
  · decide

/-- C1 amended: the Title Stripper converts each cell to text and removes, in
one left-to-right pass, every word-boundary-anchored occurrence of
`(mr|mrs|dr|ms|shri)` (case-insensitive, leftmost alternative first),
each optionally followed by a period and whitespace — mid-string titles are
removed exactly like leading ones — and a cell whose text contains no such
occurrence is returned unchanged. -/
theorem C1_amended_strip_everywhere (df : Dataset) (nameCol : String) (i : Nat)
    (hcol : findCol df nameCol = some i) :
    remove_extra_titles df nameCol =
      mapColumnAt df i (fun c => Cell.strV (stripTitles (cellToStr c))) ∧
    (∀ s : String, hasTitleMatch s = false → stripTitles s = s) ∧
    stripTitles "Dr. Jane Smith" = "Jane Smith" ∧
    stripTitles "Jane Dr. Smith" = "Jane Smith" := by
  refine ⟨?_, ?_, by decide, by decide⟩
  · unfold remove_extra_titles
    rw [hcol]
  · intro s hs
    show String.mk (goT s.data.length false s.data) = s
    rw [goT_no_match s.data.length false s.data (le_refl _) hs]

/-- C1 amended, witness: at a concrete dataset and a concrete title-free
string the hypotheses hold and the amended behaviour follows. -/
theorem C1_amended_witness :
    stripTitles "Jane Smith" = "Jane Smith" :=
  (C1_amended_strip_everywhere (Dataset.mk ["name"] [[Cell.strV "Jane Smith"]])
    "name" 0 (by decide)).2.1 "Jane Smith" (by decide)

/-- Numeric-cell test. -/
def isNumCell : Cell → Bool
  | .numV _ => true
  | _ => false

/-- Missing-cell test. -/
def isMissingCell : Cell → Bool
  | .missing => true
  | _ => false

/-- Numeric-dtype test, as `select_dtypes(include=np.number)` selects columns:
every cell is a number or missing (an all-missing column is float64, hence
numeric; bool and object columns are excluded). -/
def isNumericCol (cells : List Cell) : Bool :=
  cells.all (fun c => isNumCell c || isMissingCell c)

/-- Present (non-missing) numeric values of a column, in row order. -/
def presentVals (cells : List Cell) : List ℚ :=
  cells.filterMap (fun c => match c with | .numV q => some q | _ => none)

/-- Pandas `mean()` with default NaN skipping: `none` models the NaN result on
an all-missing column. -/
def meanQ (xs : List ℚ) : Option ℚ :=
  if xs.length = 0 then none else some (xs.sum / (xs.length : ℚ))

/-- Pandas `median()` (average of the two middle order statistics when the
count is even); `none` models the NaN result on an all-missing column. -/
def medianQ (xs : List ℚ) : Option ℚ :=
  if xs.length = 0 then none
  else
    let sorted := xs.mergeSort (fun a b => decide (a ≤ b))
    let n := xs.length
    if n % 2 = 1 then some (sorted.getD (n / 2) 0)
    else some ((sorted.getD (n / 2 - 1) 0 + sorted.getD (n / 2) 0) / 2)

/-- Largest multiplicity occurring in the list. -/
def maxFreq (xs : List ℚ) : Nat := (xs.map (fun x => xs.count x)).foldr max 0

/-- Pandas `mode()[0]`: the smallest among the most frequent present values;
`none` models the empty mode series of an all-missing column (whose `[0]`
raises `KeyError`). -/
def modeQ (xs : List ℚ) : Option ℚ :=
  (xs.filter (fun x => xs.count x = maxFreq xs)).min?

/-- Fill value chosen by the impute branch of `handle_missing_values` for one
numeric column; `Except.error` models the uncaught `KeyError` of `mode()[0]`
on an all-missing column, while a NaN fill value (mean/median of an
all-missing column) is modelled as `none`, because `fillna(nan)` leaves the
column unchanged. -/
def imputeValue (method : String) (cells : List Cell) : Except String (Option ℚ) :=
  if method = "mean" then .ok (meanQ (presentVals cells))
  else if method = "median" then .ok (medianQ (presentVals cells))
  else if method = "mode" then
    match modeQ (presentVals cells) with
    | some m => .ok (some m)
    | none => .error "KeyError: 0 (mode of an all-missing column is empty)"
  else .ok none

/-- Source `handle_missing_values` (main.py lines 57-68): strategy `drop` is
`df.dropna()` over all columns; strategy `impute` fills the missing cells of
every numeric column with the column's mean, median, or mode.  The result is
an `Except` because the mode branch can raise. -/
def handle_missing_values (df : Dataset) (strategy : String) (method : String) :
    Except String Dataset :=
  if strategy = "drop" then
    .ok (Dataset.mk df.header (df.rows.filter (fun r => r.all (fun c => !isMissingCell c))))
  else if strategy = "impute" then
    (List.range df.header.length).foldlM (fun acc i =>
      if isNumericCol (column acc i) then
        match imputeValue method (column acc i) with
        | .ok (some v) =>
          .ok (mapColumnAt acc i (fun c => if isMissingCell c then Cell.numV v else c))
        | .ok none => .ok acc
        | .error e => .error e
      else .ok acc) df
  else .ok df

/-- C2: the drop strategy with an explicit non-empty column list retains
exactly the rows with no missing value in any listed column — rows whose
missing values lie only in unlisted columns stay — and never grows the row
count. -/
theorem C2_drop_listed_columns (df : Dataset) (cols : List String)
    (hne : cols ≠ []) :
    (∀ r, r ∈ (dropna_subset df cols).rows ↔
      r ∈ df.rows ∧ ∀ c ∈ cols, cellAtName df r c ≠ Cell.missing) ∧
    (dropna_subset df cols).rows.length ≤ df.rows.length := by
  constructor
  · intro r
    simp [dropna_subset, List.mem_filter, List.all_eq_true]
  · exact List.length_filter_le _ _

/-- C2 witness: in a concrete two-column dataset, the row missing only in the
unlisted column `b` is retained by a drop over column `a`. -/
theorem C2_drop_witness :
    [Cell.numV (qInt 2), Cell.missing] ∈
      (dropna_subset
        (Dataset.mk ["a", "b"]
          [[Cell.missing, Cell.numV (qInt 1)],
           [Cell.numV (qInt 2), Cell.missing],
           [Cell.numV (qInt 3), Cell.numV (qInt 4)]]) ["a"]).rows :=
  ((C2_drop_listed_columns
    (Dataset.mk ["a", "b"]
      [[Cell.missing, Cell.numV (qInt 1)],
       [Cell.numV (qInt 2), Cell.missing],
       [Cell.numV (qInt 3), Cell.numV (qInt 4)]]) ["a"] (by decide)).1 _).mpr
    ⟨by decide, by decide⟩

/-- C3: on a dataset whose numeric column is entirely missing, impute with
mean or median leaves the column unchanged (well-defined no-op), but impute
with mode raises an uncaught `KeyError` — `mode()` of the column is an empty
series and `[0]` fails — contradicting the specified
never-a-fatal-error contract. -/
theorem C3_mode_keyerror_all_missing :
    handle_missing_values (Dataset.mk ["x"] [[Cell.missing], [Cell.missing]])
      "impute" "mode" =
      Except.error "KeyError: 0 (mode of an all-missing column is empty)" ∧
    handle_missing_values (Dataset.mk ["x"] [[Cell.missing], [Cell.missing]])
      "impute" "mean" =
      Except.ok (Dataset.mk ["x"] [[Cell.missing], [Cell.missing]]) ∧
    handle_missing_values (Dataset.mk ["x"] [[Cell.missing], [Cell.missing]])
      "impute" "median" =
      Except.ok (Dataset.mk ["x"] [[Cell.missing], [Cell.missing]]) := by
  refine ⟨rfl, rfl, rfl⟩

theorem findCol_lt (df : Dataset) (name : String) (i : Nat)
    (h : findCol df name = some i) : i < df.header.length :=
  (List.findIdx?_eq_some_iff_findIdx_eq.mp h).1

theorem column_mapColumnAt (df : Dataset) (i : Nat) (f : Cell → Cell)
    (hAl : Aligned df) (hi : i < df.header.length) :
    column (mapColumnAt df i f) i = (column df i).map f := by
  unfold column mapColumnAt
  simp only [List.map_map]
  apply List.map_congr_left
  intro r hr
  have hi2 : i < r.length := by
    rw [hAl r hr]; exact hi
  show (r.set i (f (getCell r i))).getD i Cell.missing = f (getCell r i)
  simp only [List.getD, List.get?_eq_getElem?]
  rw [List.getElem?_set_self hi2]
  rfl

/-- ASCII digit test. -/
def isDigitCh (c : Char) : Bool := decide (48 ≤ c.toNat ∧ c.toNat ≤ 57)

/-- Value of a digit string. -/
def digitsVal (l : List Char) : Nat := l.foldl (fun a c => a * 10 + (c.toNat - 48)) 0

/-- Integer power of ten over the rationals. -/
def qPow10 (e : Int) : ℚ :=
  if 0 ≤ e then (10:ℚ)^e.toNat else 1 / (10:ℚ)^((-e).toNat)

/-- Mantissa of a Python float literal: `digits`, `digits.digits`, `.digits`
or `digits.`; returns its value and the unconsumed input. -/
def parseMantissa (l : List Char) : Option (ℚ × List Char) :=
  let ip := l.takeWhile isDigitCh
  let l2 := l.dropWhile isDigitCh
  match l2 with
  | '.' :: t =>
    let fp := t.takeWhile isDigitCh
    let l3 := t.dropWhile isDigitCh
    if ip.length = 0 ∧ fp.length = 0 then none
    else some ((digitsVal ip : ℚ) + (digitsVal fp : ℚ) / (10:ℚ)^fp.length, l3)
  | _ =>
    if ip.length = 0 then none
    else some ((digitsVal ip : ℚ), l2)

/-- Exponent part following `e`/`E`: optional sign then digits. -/
def parseExp (l : List Char) : Option Int :=
  let sgn : Int := match l with
    | '-' :: _ => -1
    | _ => 1
  let l2 := match l with
    | '+' :: t => t
    | '-' :: t => t
    | t => t
  if l2.length ≠ 0 ∧ l2.all isDigitCh then some (sgn * digitsVal l2) else none

/-- Numeric parsing of one text cell, as `pd.to_numeric` accepts Python float
syntax: surrounding whitespace, sign, decimal mantissa, optional exponent.
Failures give `none`, which the coercing conversion turns into missing (the
text `"nan"` also gives `none`, matching the NaN it denotes; non-finite
spellings such as `"inf"` are not modelled — no claim involves them). -/
def parseNumText (s : String) : Option ℚ :=
  let l := pyStripChars s.data
  let sgn : ℚ := match l with
    | '-' :: _ => -1
    | _ => 1
  let l1 := match l with
    | '+' :: t => t
    | '-' :: t => t
    | t => t
  match parseMantissa l1 with
  | none => none
  | some (m, rest) =>
    match rest with
    | [] => some (sgn * m)
    | 'e' :: t =>
      match parseExp t with
      | some e => some (sgn * m * qPow10 e)
      | none => none
    | 'E' :: t =>
      match parseExp t with
      | some e => some (sgn * m * qPow10 e)
      | none => none
    | _ => none

/-- Pandas `to_numeric(errors="coerce")` on one cell: numbers pass through,
booleans become 0/1, text is parsed, missing stays missing (`none`). -/
def toNumericCell (c : Cell) : Option ℚ :=
  match c with
  | .numV q => some q
  | .boolV b => some (if b then 1 else 0)
  | .strV s => parseNumText s
  | .dateV d => some (qInt d)
  | .missing => none

/-- Modelled simplification of `pd.to_datetime(..., errors="coerce")` on a
text cell: the permissive format family is narrowed to ISO `YYYY-MM-DD`
(encoded as y·10000 + m·100 + d); anything else is unparseable and coerces to
missing.  No claim depends on which date texts parse, only on the
coerce-to-missing behaviour. -/
def parseDateText (s : String) : Option Int :=
  match s.data with
  | [y1, y2, y3, y4, '-', m1, m2, '-', d1, d2] =>
    if [y1, y2, y3, y4, m1, m2, d1, d2].all isDigitCh then
      let m := digitsVal [m1, m2]
      let d := digitsVal [d1, d2]
      if 1 ≤ m ∧ m ≤ 12 ∧ 1 ≤ d ∧ d ≤ 31 then
        some (digitsVal [y1, y2, y3, y4] * 10000 + m * 100 + d)
      else none
    else none
  | _ => none

/-- Datetime coercion of one cell. -/
def toDatetimeCell (c : Cell) : Option Int :=
  match c with
  | .strV s => parseDateText s
  | .dateV d => some d
  | .numV q => if q.den = 1 then some q.num else none
  | .boolV _ => none
  | .missing => none

/-- One iteration of the conversion loop of source `convert_column_types`
(main.py lines 70-83), i.e. the body of the per-column `try`: `int` is
`to_numeric(errors="coerce").astype("Int64")` — when some parsed value is
non-integral the `astype` raises, the exception is caught and the column is
left wholly unchanged; `float` is plain coercion with failures becoming
missing; `str` is `astype(str)`; `datetime` is `to_datetime(errors="coerce")`.
An absent column name (a `KeyError` inside the `try`) likewise leaves the
dataset unchanged. -/
def convertOneCol (df : Dataset) (name dtype : String) : Dataset :=
  match findCol df name with
  | none => df
  | some i =>
    if dtype = "int" then
      if (column df i).all (fun c => match toNumericCell c with
          | some q => decide (q.den = 1)
          | none => true) then
        mapColumnAt df i (fun c => match toNumericCell c with
          | some q => Cell.numV q
          | none => Cell.missing)
      else df
    else if dtype = "float" then
      mapColumnAt df i (fun c => match toNumericCell c with
        | some q => Cell.numV q
        | none => Cell.missing)
    else if dtype = "str" then
      mapColumnAt df i (fun c => Cell.strV (cellToStr c))
    else if dtype = "datetime" then
      mapColumnAt df i (fun c => match toDatetimeCell c with
        | some d => Cell.dateV d
        | none => Cell.missing)
    else df

/-- Source `convert_column_types`: the conversions are applied column by
column; a failure in one column never aborts the loop. -/
def convert_column_types (df : Dataset) (conversions : List (String × String)) :
    Dataset :=
  conversions.foldl (fun acc conv => convertOneCol acc conv.1 conv.2) df

/-- C4 counterexample: the claim says every cell that fails to parse as
integer becomes missing; but converting the column `["1.5", "x"]` to integer
leaves the column wholly unchanged — `to_numeric` yields the non-integral
1.5, `astype("Int64")` raises, the exception is caught, and `"x"` does not
become missing. -/
theorem C4_counterexample :
    convert_column_types (Dataset.mk ["a"] [[Cell.strV "1.5"], [Cell.strV "x"]])
      [("a", "int")] =
      Dataset.mk ["a"] [[Cell.strV "1.5"], [Cell.strV "x"]] ∧
    Cell.strV "x" ≠ Cell.missing := by
  constructor
  · decide
  · decide

/-- C4 amended: the Type Converter never raises and per-column failures are
isolated; for target `float` every cell is independently coerced with parse
failures becoming missing; converting `["1","x","3"]` to integer yields
`[1, missing, 3]`; but when an integer conversion meets a non-integral
numeric value the whole column is left unchanged (not cell-wise missing),
while the other columns of the same call are still converted. -/
theorem C4_amended_convert_isolated (df : Dataset) (col : String) (i : Nat)
    (hcol : findCol df col = some i) (hAl : Aligned df) :
    column (convert_column_types df [(col, "float")]) i =
      (column df i).map (fun c => match toNumericCell c with
        | some q => Cell.numV q
        | none => Cell.missing) ∧
    convert_column_types (Dataset.mk ["a", "b"]
        [[Cell.strV "1.5", Cell.strV "7.5"],
         [Cell.strV "x", Cell.strV "y"],
         [Cell.strV "3", Cell.strV "8"]])
      [("a", "int"), ("b", "float")] =
      Dataset.mk ["a", "b"]
        [[Cell.strV "1.5", Cell.numV (mkRat 15 2)],
         [Cell.strV "x", Cell.missing],
         [Cell.strV "3", Cell.numV (qInt 8)]] ∧
    convert_column_types
        (Dataset.mk ["c"] [[Cell.strV "1"], [Cell.strV "x"], [Cell.strV "3"]])
      [("c", "int")] =
      Dataset.mk ["c"] [[Cell.numV (qInt 1)], [Cell.missing], [Cell.numV (qInt 3)]] := by
  refine ⟨?_, by decide, by decide⟩
  have hstep : convertOneCol df col "float" =
      mapColumnAt df i (fun c => match toNumericCell c with
        | some q => Cell.numV q
        | none => Cell.missing) := by
    unfold convertOneCol
    rw [hcol]
    rfl
  rw [show convert_column_types df [(col, "float")] = convertOneCol df col "float" from rfl,
    hstep]
  exact column_mapColumnAt df i _ hAl (findCol_lt df col i hcol)

/-- C4 amended, witness: a concrete float conversion coerces the parseable
cell and turns the unparseable one into missing. -/
theorem C4_amended_witness :
    column (convert_column_types (Dataset.mk ["p"] [[Cell.strV "2"], [Cell.strV "zz"]])
      [("p", "float")]) 0 = [Cell.numV (qInt 2), Cell.missing] := by
  rw [(C4_amended_convert_isolated
    (Dataset.mk ["p"] [[Cell.strV "2"], [Cell.strV "zz"]]) "p" 0 rfl (by decide)).1]
  decide

/-- C10: converting a column to text replaces every cell, including missing
ones, by its textual representation, so missing cells become the literal
string `"nan"` and the converted column contains no missing cell. -/
theorem C10_text_conversion_kills_missing (df : Dataset) (col : String) (i : Nat)
    (hcol : findCol df col = some i) (hAl : Aligned df) :
    column (convert_column_types df [(col, "str")]) i =
      (column df i).map (fun c => Cell.strV (cellToStr c)) ∧
    (∀ c ∈ column (convert_column_types df [(col, "str")]) i, c ≠ Cell.missing) ∧
    cellToStr Cell.missing = "nan" := by
  have ha : column (convert_column_types df [(col, "str")]) i =
      (column df i).map (fun c => Cell.strV (cellToStr c)) := by
    have hstep : convertOneCol df col "str" =
        mapColumnAt df i (fun c => Cell.strV (cellToStr c)) := by
      unfold convertOneCol
      rw [hcol]
      rfl
    rw [show convert_column_types df [(col, "str")] = convertOneCol df col "str" from rfl,
      hstep]
    exact column_mapColumnAt df i _ hAl (findCol_lt df col i hcol)
  refine ⟨ha, ?_, rfl⟩
  intro c hc
  rw [ha] at hc
  obtain ⟨a, _, rfl⟩ := List.mem_map.mp hc
  intro hcon
  cases hcon

/-- C10 witness: in a concrete column, the missing cell becomes the literal
string cell `"nan"` and the numeric cell its text form. -/
theorem C10_witness :
    column (convert_column_types
      (Dataset.mk ["q"] [[Cell.missing], [Cell.numV (qInt 3)]]) [("q", "str")]) 0 =
      [Cell.strV "nan", Cell.strV "3.0"] := by
  rw [(C10_text_conversion_kills_missing
    (Dataset.mk ["q"] [[Cell.missing], [Cell.numV (qInt 3)]]) "q" 0 rfl (by decide)).1]
  decide

/-- Separator class `[-\s]` of the phone pattern. -/
def isSepCh (c : Char) : Bool := decide (c = '-') || isPySpace c

/-- Core `[6-9]\d{9}` of the phone pattern: ten digits, first in 6-9
(54-57 are the code points of the characters 6-9). -/
def phoneCore (l : List Char) : Bool :=
  match l with
  | c :: rest =>
    decide (54 ≤ c.toNat ∧ c.toNat ≤ 57) && decide (rest.length = 9) && rest.all isDigitCh
  | [] => false

/-- Full match of the source pattern `^(\+91[-\s]?)?[6-9]\d{9}$`
(main.py line 105) against a character list. -/
def phoneOkL : List Char → Bool
  | '+' :: '9' :: '1' :: t =>
    phoneCore t ||
      (match t with
       | c :: t2 => isSepCh c && phoneCore t2
       | [] => false)
  | l => phoneCore l

/-- Full match of the source phone pattern against a string, as
`str.fullmatch` applies it. -/
def phoneOk (s : String) : Bool := phoneOkL s.data

/-- Source `validate_phone_numbers` (main.py lines 104-107): each cell of the
phone column is converted to text and fully matched; the boolean results are
written to the column `valid_phone` (overwriting it when it already exists,
appending it otherwise). -/
def validate_phone_numbers (df : Dataset) (phoneCol : String) : Dataset :=
  match findCol df phoneCol with
  | none => df
  | some i =>
    match findCol df "valid_phone" with
    | some j =>
      Dataset.mk df.header
        (df.rows.map (fun r => r.set j (Cell.boolV (phoneOk (cellToStr (getCell r i))))))
    | none =>
      Dataset.mk (df.header ++ ["valid_phone"])
        (df.rows.map (fun r => r ++ [Cell.boolV (phoneOk (cellToStr (getCell r i)))]))

/-- Column of a dataset by name. -/
def getColumn (df : Dataset) (name : String) : Option (List Cell) :=
  (findCol df name).map (column df)

/-- Claim-side reading of the phone core: exactly ten digits whose first
digit is 6-9. -/
def PhoneCoreP (l : List Char) : Prop :=
  l.length = 10 ∧ (∀ c ∈ l, isDigitCh c = true) ∧
    ∃ c t, l = c :: t ∧ 54 ≤ c.toNat ∧ c.toNat ≤ 57

/-- Claim-side reading of the full phone pattern: an optional `+91` country
code with optional separator, followed by the ten-digit core. -/
def PhoneSpecP (l : List Char) : Prop :=
  PhoneCoreP l ∨ ∃ t, l = '+' :: '9' :: '1' :: t ∧
    (PhoneCoreP t ∨ ∃ c t2, t = c :: t2 ∧ (c = '-' ∨ isPySpace c = true) ∧ PhoneCoreP t2)

theorem phoneCore_iff (l : List Char) : phoneCore l = true ↔ PhoneCoreP l := by
  cases l with
  | nil =>
    simp only [phoneCore, PhoneCoreP]
    constructor
    · intro h; cases h
    · rintro ⟨h, _⟩; cases h
  | cons c rest =>
    simp only [phoneCore, PhoneCoreP, Bool.and_eq_true, decide_eq_true_eq,
      List.all_eq_true, List.length_cons]
    constructor
    · rintro ⟨⟨hr, hlen⟩, hall⟩
      refine ⟨by omega, ?_, c, rest, rfl, hr.1, hr.2⟩
      intro x hx
      rcases List.mem_cons.mp hx with rfl | hx2
      · simp only [isDigitCh, decide_eq_true_eq]
        omega
      · exact hall x hx2
    · rintro ⟨hlen, hall, c2, t2, heq, h1, h2⟩
      injection heq with e1 e2
      subst e1
      subst e2
      exact ⟨⟨⟨h1, h2⟩, by omega⟩, fun x hx => hall x (List.mem_cons_of_mem _ hx)⟩

theorem phoneOkL_iff (l : List Char) : phoneOkL l = true ↔ PhoneSpecP l := by
  unfold phoneOkL
  split
  · rename_i t
    rw [Bool.or_eq_true]
    constructor
    · rintro (h | h)
      · exact Or.inr ⟨t, rfl, Or.inl ((phoneCore_iff t).mp h)⟩
      · refine Or.inr ⟨t, rfl, Or.inr ?_⟩
        cases t with
        | nil => cases h
        | cons c t2 =>
          rw [Bool.and_eq_true] at h
          refine ⟨c, t2, rfl, ?_, (phoneCore_iff t2).mp h.2⟩
          have hs := h.1
          simp only [isSepCh, Bool.or_eq_true, decide_eq_true_eq] at hs
          exact hs
    · rintro (h | ⟨t2, heq, h⟩)
      · exfalso
        obtain ⟨_, _, c, t3, heq, hr1, hr2⟩ := h
        injection heq with e1 _
        subst e1
        exact absurd hr1 (by decide)
      · injection heq with e1 heq
        injection heq with e2 heq
        injection heq with e3 heq
        subst heq
        rcases h with hp | ⟨c, t3, rfl, hsep, hcore⟩
        · exact Or.inl ((phoneCore_iff t).mpr hp)
        · refine Or.inr ?_
          rw [Bool.and_eq_true]
          refine ⟨?_, (phoneCore_iff t3).mpr hcore⟩
          simp only [isSepCh, Bool.or_eq_true, decide_eq_true_eq]
          exact hsep
  · rename_i hne
    rw [phoneCore_iff]
    constructor
    · exact Or.inl
    · rintro (h | ⟨t2, heq, _⟩)
      · exact h
      · exact absurd heq (by intro hh; exact hne t2 hh)

/-- C5: the phone validator writes a boolean column named `valid_phone` whose
entry is true exactly when the cell's text form fully matches the optional
`+91` (with optional separator) followed by ten digits starting 6-9; in
particular `"+91-9876543210"` is valid, `"5876543210"` and `""` are not, and
a missing cell (text form `"nan"`) is false — never an error. -/
theorem C5_phone_validator (df : Dataset) (phoneCol : String) (i : Nat)
    (hcol : findCol df phoneCol = some i)
    (hvp : findCol df "valid_phone" = none)
    (hAl : Aligned df) :
    getColumn (validate_phone_numbers df phoneCol) "valid_phone" =
      some ((column df i).map (fun c => Cell.boolV (phoneOk (cellToStr c)))) ∧
    (∀ s : String, phoneOk s = true ↔ PhoneSpecP s.data) ∧
    phoneOk "+91-9876543210" = true ∧
    phoneOk "5876543210" = false ∧
    phoneOk "" = false ∧
    phoneOk (cellToStr Cell.missing) = false := by
  refine ⟨?_, fun s => phoneOkL_iff s.data, by decide, by decide, by decide, by decide⟩
  unfold validate_phone_numbers
  simp only [hcol, hvp]
  unfold getColumn findCol
  have hvp2 : df.header.findIdx? (fun s => s == "valid_phone") = none := hvp
  rw [List.findIdx?_append, hvp2]
  have hone : (["valid_phone"].findIdx? (fun s => s == "valid_phone")) = some 0 := rfl
  rw [hone]
  simp only [Option.map_some', Option.none_or, Nat.zero_add]
  congr 1
  unfold column
  simp only [List.map_map]
  apply List.map_congr_left
  intro r hr
  show getCell (r ++ [Cell.boolV (phoneOk (cellToStr (getCell r i)))]) df.header.length =
    Cell.boolV (phoneOk (cellToStr (getCell r i)))
  unfold getCell
  rw [← hAl r hr]
  simp only [List.getD, List.get?_eq_getElem?, List.getElem?_concat_length]
  rfl

/-- C5 witness: a concrete phone column yields the `valid_phone` flags
true/false/false for a valid `+91` number, a bad leading digit, and a missing
cell. -/
theorem C5_witness :
    getColumn (validate_phone_numbers
      (Dataset.mk ["ph"]
        [[Cell.strV "+91-9876543210"], [Cell.strV "5876543210"], [Cell.missing]]) "ph")
      "valid_phone" =
      some [Cell.boolV true, Cell.boolV false, Cell.boolV false] := by
  rw [(C5_phone_validator
    (Dataset.mk ["ph"]
      [[Cell.strV "+91-9876543210"], [Cell.strV "5876543210"], [Cell.missing]])
    "ph" 0 rfl rfl (by decide)).1]
  decide

/-- Outlier count of one numeric column, as main.py lines 96-97 compute it:
`z = (x - mean) / std()` with the pandas default sample standard deviation
(ddof = 1), counting `|z| > 3` over the present values (missing cells have
NaN z-scores and are never counted).  The float comparison is rendered
exactly by clearing denominators: with n the number of present values, T
their sum and S9 the sum of the squares of `n*x - T`, the test `|z| > 3` is
equivalent to `(n*x - T)^2 * (n - 1) > 9 * S9`.  When n <= 1 the sample std
is NaN, and when the spread is zero the z-scores are NaN (0/0); both make
every float comparison false, hence zero outliers. -/
def colOutlierCount (cells : List Cell) : Nat :=
  if (presentVals cells).length ≤ 1 ∨
      ((presentVals cells).map (fun x =>
        (((presentVals cells).length : ℚ) * x - (presentVals cells).sum)^2)).sum = 0 then 0
  else (presentVals cells).countP (fun x =>
    decide ((((presentVals cells).length : ℚ) * x - (presentVals cells).sum)^2 *
      (((presentVals cells).length : ℚ) - 1) >
      9 * ((presentVals cells).map (fun y =>
        (((presentVals cells).length : ℚ) * y - (presentVals cells).sum)^2)).sum))

/-- Named columns of the dataset, in header order. -/
def colsPairs (df : Dataset) : List (String × List Cell) :=
  df.header.enum.map (fun p => (p.2, column df p.1))

/-- Report entry of one column: numeric columns with a positive outlier count
appear, all other columns are omitted. -/
def outlierEntry (p : String × List Cell) : Option (String × Nat) :=
  if isNumericCol p.2 then
    if colOutlierCount p.2 > 0 then some (p.1, colOutlierCount p.2) else none
  else none

/-- Source `detect_outliers` (main.py lines 93-100): the per-column outlier
report over the numeric columns. -/
def detect_outliers (df : Dataset) : List (String × Nat) :=
  (colsPairs df).filterMap outlierEntry

theorem outlierEntry_fst (p : String × List Cell) (q : String × Nat)
    (h : outlierEntry p = some q) : q.1 = p.1 := by
  unfold outlierEntry at h
  split at h
  · split at h
    · injection h with h
      subst h
      rfl
    · cases h
  · cases h

theorem lookup_filterMap_not_mem (l : List (String × List Cell)) (name : String)
    (hn : ∀ p ∈ l, p.1 ≠ name) :
    (l.filterMap outlierEntry).lookup name = none := by
  induction l with
  | nil => rfl
  | cons p t ih =>
    have hp : p.1 ≠ name := hn p (List.mem_cons_self _ _)
    cases hq : outlierEntry p with
    | none =>
      rw [List.filterMap_cons_none hq]
      exact ih (fun r hr => hn r (List.mem_cons_of_mem _ hr))
    | some q =>
      obtain ⟨qk, qv⟩ := q
      have hq1 : qk = p.1 := outlierEntry_fst p (qk, qv) hq
      rw [List.filterMap_cons_some hq, List.lookup_cons]
      rw [show ((name == qk) = false) by simp [hq1, Ne.symm hp]]
      exact ih (fun r hr => hn r (List.mem_cons_of_mem _ hr))

theorem lookup_detect_aux (l : List (String × List Cell)) (name : String)
    (cells : List Cell) (hnd : (l.map Prod.fst).Nodup) (hmem : (name, cells) ∈ l) :
    (l.filterMap outlierEntry).lookup name =
      (if isNumericCol cells = true ∧ colOutlierCount cells > 0 then
        some (colOutlierCount cells) else none) := by
  induction l with
  | nil => cases hmem
  | cons p t ih =>
    rw [List.map_cons, List.nodup_cons] at hnd
    rcases List.mem_cons.mp hmem with h1 | h1
    · subst h1
      cases hq : outlierEntry (name, cells) with
      | none =>
        have hcond : ¬(isNumericCol cells = true ∧ colOutlierCount cells > 0) := by
          intro hc
          unfold outlierEntry at hq
          rw [if_pos hc.1, if_pos hc.2] at hq
          cases hq
        rw [List.filterMap_cons_none hq, if_neg hcond]
        apply lookup_filterMap_not_mem
        intro r hr heq
        exact hnd.1 (List.mem_map.mpr ⟨r, hr, heq⟩)
      | some q =>
        have hcond : isNumericCol cells = true ∧ colOutlierCount cells > 0 := by
          unfold outlierEntry at hq
          by_cases hb : isNumericCol cells = true
          · rw [if_pos hb] at hq
            by_cases hc : colOutlierCount cells > 0
            · exact ⟨hb, hc⟩
            · rw [if_neg hc] at hq
              cases hq
          · rw [if_neg hb] at hq
            cases hq
        have hqv : q = (name, colOutlierCount cells) := by
          unfold outlierEntry at hq
          rw [if_pos hcond.1, if_pos hcond.2] at hq
          injection hq with h
          exact h.symm
        subst hqv
        rw [List.filterMap_cons_some hq, if_pos hcond]
        exact List.lookup_cons_self
    · have hne : p.1 ≠ name := by
        intro heq
        have : name ∈ List.map Prod.fst t := by
          apply List.mem_map.mpr
          exact ⟨(name, cells), h1, rfl⟩
        rw [heq] at hnd
        exact hnd.1 this
      cases hq : outlierEntry p with
      | none =>
        rw [List.filterMap_cons_none hq]
        exact ih hnd.2 h1
      | some q =>
        obtain ⟨qk, qv⟩ := q
        have hq1 : qk = p.1 := outlierEntry_fst p (qk, qv) hq
        rw [List.filterMap_cons_some hq, List.lookup_cons]
        rw [show ((name == qk) = false) by simp [hq1, Ne.symm hne]]
        exact ih hnd.2 h1

theorem colsPairs_map_fst (df : Dataset) : (colsPairs df).map Prod.fst = df.header := by
  unfold colsPairs
  rw [List.map_map]
  have hfun : (Prod.fst ∘ fun p : Nat × String => (p.2, column df p.1)) = Prod.snd := by
    funext p
    rfl
  rw [hfun]
  exact List.enum_map_snd df.header

theorem sum_of_all_eq (xs : List ℚ) (c : ℚ) (h : ∀ x ∈ xs, x = c) :
    xs.sum = (xs.length : ℚ) * c := by
  induction xs with
  | nil => simp
  | cons a t ih =>
    have ha : a = c := h a (List.mem_cons_self _ _)
    rw [List.sum_cons, ih (fun x hx => h x (List.mem_cons_of_mem _ hx)), ha,
      List.length_cons]
    push_cast
    ring

theorem colOutlierCount_const (cells : List Cell)
    (h : ∀ x ∈ presentVals cells, ∀ y ∈ presentVals cells, x = y) :
    colOutlierCount cells = 0 := by
  unfold colOutlierCount
  by_cases hlen : (presentVals cells).length ≤ 1
  · rw [if_pos (Or.inl hlen)]
  · have hS : ((presentVals cells).map (fun x =>
        (((presentVals cells).length : ℚ) * x - (presentVals cells).sum)^2)).sum = 0 := by
      apply List.sum_eq_zero
      intro z hz
      obtain ⟨x, hx, rfl⟩ := List.mem_map.mp hz
      have hT : (presentVals cells).sum = ((presentVals cells).length : ℚ) * x :=
        sum_of_all_eq _ x (fun y hy => h y hy x hx)
      rw [hT]
      ring
    rw [if_pos (Or.inr hS)]

/-- C6: on a constant numeric column (all present values equal, hence zero
standard deviation) the Outlier Detector counts zero outliers and omits the
column from the report; no error and no NaN/infinite value is produced, the
0/0 z-scores simply compare false. -/
theorem C6_constant_column_no_outliers (df : Dataset) (name : String)
    (cells : List Cell) (hnd : df.header.Nodup) (hmem : (name, cells) ∈ colsPairs df)
    (hnum : isNumericCol cells = true)
    (hconst : ∀ x ∈ presentVals cells, ∀ y ∈ presentVals cells, x = y) :
    colOutlierCount cells = 0 ∧ (detect_outliers df).lookup name = none := by
  have hc := colOutlierCount_const cells hconst
  refine ⟨hc, ?_⟩
  unfold detect_outliers
  rw [lookup_detect_aux (colsPairs df) name cells
    (by rw [colsPairs_map_fst]; exact hnd) hmem, hc]
  simp

/-- C6 witness: the constant column `[5,5,5,5]` yields no outlier report
entry. -/
theorem C6_witness :
    (detect_outliers (Dataset.mk ["c"]
      [[Cell.numV (qInt 5)], [Cell.numV (qInt 5)],
       [Cell.numV (qInt 5)], [Cell.numV (qInt 5)]])).lookup "c" = none :=
  (C6_constant_column_no_outliers
    (Dataset.mk ["c"]
      [[Cell.numV (qInt 5)], [Cell.numV (qInt 5)],
       [Cell.numV (qInt 5)], [Cell.numV (qInt 5)]])
    "c" [Cell.numV (qInt 5), Cell.numV (qInt 5), Cell.numV (qInt 5), Cell.numV (qInt 5)]
    (by decide) (by decide) (by decide) (by decide)).2

/-- C7 counterexample: on the single numeric column `[0×9, 1, 4]` the value 4
has population z-score √10 > 3, so the claim (population standard deviation)
predicts a reported count of 1; the code divides by the pandas sample
standard deviation (ddof = 1), giving z = 10·√11/11·... < 3 for every value,
so the report is empty. -/
theorem C7_counterexample :
    (let xs : List ℚ := [qInt 0, qInt 0, qInt 0, qInt 0, qInt 0, qInt 0, qInt 0,
        qInt 0, qInt 0, qInt 1, qInt 4]
     detect_outliers (Dataset.mk ["c"] (xs.map (fun q => [Cell.numV q]))) = [] ∧
     xs.countP (fun x => decide ((x - xs.sum / (xs.length : ℚ))^2 >
       9 * ((xs.map (fun y => (y - xs.sum / (xs.length : ℚ))^2)).sum /
         (xs.length : ℚ)))) = 1) := by
  decide

/-- C7 amended: for a numeric column with at least two present values and
non-zero spread, the reported count is the number of present values x with
`(x - μ)² > 9·σ²_sample`, where μ is the mean and σ²_sample the SAMPLE
variance `Σ(x - μ)²/(n - 1)` (pandas `std()` default ddof = 1), the column
being omitted when that count is zero. -/
theorem C7_amended_outliers_sample_std (df : Dataset) (name : String)
    (cells : List Cell) (xs : List ℚ) (n : ℕ) (μ S : ℚ)
    (hxs : xs = presentVals cells) (hn : n = xs.length)
    (hmu : μ = xs.sum / (n : ℚ))
    (hS : S = (xs.map (fun x => (x - μ)^2)).sum)
    (hnd : df.header.Nodup) (hmem : (name, cells) ∈ colsPairs df)
    (hnum : isNumericCol cells = true) (h2 : 2 ≤ n) (hS0 : S ≠ 0) :
    (detect_outliers df).lookup name =
      (if 0 < xs.countP (fun x => decide ((x - μ)^2 > 9 * (S / ((n : ℚ) - 1)))) then
        some (xs.countP (fun x => decide ((x - μ)^2 > 9 * (S / ((n : ℚ) - 1)))))
      else none) := by
  have hcast : (2:ℚ) ≤ (n:ℚ) := by exact_mod_cast h2
  have hn0 : (0:ℚ) < (n : ℚ) := by linarith
  have hn1 : (0:ℚ) < (n : ℚ) - 1 := by linarith
  have hT : xs.sum = (n : ℚ) * μ := by
    rw [hmu]
    field_simp
  have hS9 : (xs.map (fun x => ((n:ℚ) * x - xs.sum)^2)).sum = (n:ℚ)^2 * S := by
    rw [hS, ← List.sum_map_mul_left]
    apply congrArg
    apply List.map_congr_left
    intro x _
    rw [hT]
    ring
  have hpt : ∀ x ∈ xs,
      (decide (((n:ℚ) * x - xs.sum)^2 * ((n:ℚ) - 1) >
        9 * (xs.map (fun y => ((n:ℚ) * y - xs.sum)^2)).sum) = true) ↔
      (decide ((x - μ)^2 > 9 * (S / ((n : ℚ) - 1))) = true) := by
    intro x _
    rw [decide_eq_true_eq, decide_eq_true_eq, hS9, hT]
    have h1 : ((n:ℚ) * x - (n:ℚ) * μ)^2 * ((n:ℚ) - 1) =
        (n:ℚ)^2 * ((x - μ)^2 * ((n:ℚ) - 1)) := by ring
    have h2q : 9 * ((n:ℚ)^2 * S) = (n:ℚ)^2 * (9 * S) := by ring
    rw [h1, h2q, gt_iff_lt, gt_iff_lt,
      mul_lt_mul_left (by positivity : (0:ℚ) < (n:ℚ)^2),
      show 9 * (S / ((n:ℚ) - 1)) = (9 * S) / ((n:ℚ) - 1) by ring,
      div_lt_iff₀ hn1]
  have hcount : colOutlierCount cells =
      xs.countP (fun x => decide ((x - μ)^2 > 9 * (S / ((n : ℚ) - 1)))) := by
    unfold colOutlierCount
    rw [← hxs, ← hn]
    rw [if_neg ?_]
    · exact List.countP_congr hpt
    · rintro (h | h)
      · omega
      · rw [hS9] at h
        rcases mul_eq_zero.mp h with h1 | h1
        · have : ((n:ℚ)^2) ≠ 0 := by positivity
          exact this h1
        · exact hS0 h1
  unfold detect_outliers
  rw [lookup_detect_aux (colsPairs df) name cells
    (by rw [colsPairs_map_fst]; exact hnd) hmem, hcount]
  simp only [hnum, true_and, gt_iff_lt]

/-- C7 amended, witness: on the column `[0×10, 1]` the sample z-score of 1 is
10/√11 > 3, so the code reports exactly one outlier. -/
theorem C7_amended_witness :
    (detect_outliers (Dataset.mk ["c"]
      [[Cell.numV (qInt 0)], [Cell.numV (qInt 0)], [Cell.numV (qInt 0)],
       [Cell.numV (qInt 0)], [Cell.numV (qInt 0)], [Cell.numV (qInt 0)],
       [Cell.numV (qInt 0)], [Cell.numV (qInt 0)], [Cell.numV (qInt 0)],
       [Cell.numV (qInt 0)], [Cell.numV (qInt 1)]])).lookup "c" = some 1 := by
  rw [C7_amended_outliers_sample_std (Dataset.mk ["c"]
      [[Cell.numV (qInt 0)], [Cell.numV (qInt 0)], [Cell.numV (qInt 0)],
       [Cell.numV (qInt 0)], [Cell.numV (qInt 0)], [Cell.numV (qInt 0)],
       [Cell.numV (qInt 0)], [Cell.numV (qInt 0)], [Cell.numV (qInt 0)],
       [Cell.numV (qInt 0)], [Cell.numV (qInt 1)]]) "c"
    [Cell.numV (qInt 0), Cell.numV (qInt 0), Cell.numV (qInt 0), Cell.numV (qInt 0),
     Cell.numV (qInt 0), Cell.numV (qInt 0), Cell.numV (qInt 0), Cell.numV (qInt 0),
     Cell.numV (qInt 0), Cell.numV (qInt 0), Cell.numV (qInt 1)]
    [qInt 0, qInt 0, qInt 0, qInt 0, qInt 0, qInt 0, qInt 0, qInt 0, qInt 0,
     qInt 0, qInt 1] 11 (mkRat 1 11) (mkRat 10 11)
    (by decide) (by decide) (by decide) (by decide) (by decide) (by decide)
    (by decide) (by decide) (by decide)]
  decide

/-- C9 witness: deduplicating a concrete dataset over a non-empty key list
yields a stable sublist of the original rows. -/
theorem C9_witness :
    ((remove_duplicates (Dataset.mk ["k", "v"]
      [[Cell.numV (qInt 1), Cell.numV (qInt 10)],
       [Cell.numV (qInt 1), Cell.numV (qInt 20)],
       [Cell.numV (qInt 2), Cell.numV (qInt 30)]]) ["k"]).rows).Sublist
      [[Cell.numV (qInt 1), Cell.numV (qInt 10)],
       [Cell.numV (qInt 1), Cell.numV (qInt 20)],
       [Cell.numV (qInt 2), Cell.numV (qInt 30)]] :=
  (C9_dedup_first_stable (Dataset.mk ["k", "v"]
      [[Cell.numV (qInt 1), Cell.numV (qInt 10)],
       [Cell.numV (qInt 1), Cell.numV (qInt 20)],
       [Cell.numV (qInt 2), Cell.numV (qInt 30)]]) ["k"] (by decide)).1
